import Mathlib

/-!
Verification of the Launchpad device-session multiplexer.

The development shallowly embeds the Rust sources:
  * `src/launchpad.rs` — colors, the grid event decoder, the raw and the
    buffered output device;
  * `src/main.rs`     — the `OptVec` slot table and the session router
    (the bodies of `pad_thread` and `ws_thread`).

Machine bytes are modelled as `Nat` with explicit masking; the fallible
hardware send is modelled as an oracle field `OutDev.send` returning
`Except Nat Unit` (the `Nat` standing for the raw driver error code).
-/

namespace Launchpad

/-- winapi `MM_MIM_DATA`: the driver notification code carrying a short
MIDI message (`use winapi::um::mmsystem::MM_MIM_DATA as IN_DATA`). -/
def IN_DATA : Nat := 0x3C3

/-- Byte `i` of a machine word in little-endian order; models
`(param1 as u32).to_le_bytes()` indexing in `map_midi_msgs`. -/
def byte (n i : Nat) : Nat := n / 256 ^ i % 256

/-- Little-endian packing of four bytes into one word (inverse of
`to_le_bytes` on inputs below 256). -/
def leBytes (b0 b1 b2 b3 : Nat) : Nat := b0 + 256 * (b1 + 256 * (b2 + 256 * b3))

/-- `struct Color(u8)` from `launchpad.rs`: a packed
(red-low-nibble, green-high-nibble) intensity byte. -/
structure Color where
  val : Nat
  deriving DecidableEq, Repr

/-- `Color::new(val) = Color(val & 0x33)`. -/
def Color.new (v : Nat) : Color := ⟨v &&& 0x33⟩

/-- `impl From<Color> for u8`. -/
def Color.toByte (c : Color) : Nat := c.val

/-- `impl From<u8> for Color` delegates to `Color::new`. -/
def Color.ofByte (v : Nat) : Color := Color.new v

/-- `impl From<(u8, u8)> for Color`:
`Color::new((col.0 & 0x3) | ((col.1 & 0x3) << 4))`. -/
def Color.ofPair (p : Nat × Nat) : Color :=
  Color.new ((p.1 &&& 0x3) ||| ((p.2 &&& 0x3) <<< 4))

def Color.BLACK : Color := ⟨0x00⟩
def Color.GREEN : Color := ⟨0x30⟩
def Color.ORANGE : Color := ⟨0x33⟩
def Color.RED : Color := ⟨0x03⟩
def Color.YELLOW : Color := ⟨0x31⟩

/-- Red intensity: the low nibble of the packed byte (two significant bits). -/
def Color.red (c : Color) : Nat := c.val &&& 0x3

/-- Green intensity: the high nibble of the packed byte. -/
def Color.green (c : Color) : Nat := (c.val >>> 4) &&& 0x3

/-- `enum Event` from `launchpad.rs`: `Up` is a release, `Down` a press. -/
inductive Event where
  | Up : Nat × Nat → Event
  | Down : Nat × Nat → Event
  deriving DecidableEq, Repr

/-- A raw driver notification (`win_midi::MidiMsg`, fields `msg`, `param1`;
`param2` is never inspected by the decoder). -/
structure MidiMsg where
  msg : Nat
  param1 : Nat
  deriving DecidableEq, Repr

/-- The grid event decoder: the match inside `LaunchpadIn::map_midi_msgs`
applied to one message.  The fourth little-endian byte of `param1` is the
wildcard `_` of the Rust pattern and is ignored. -/
def mapMidiMsg (m : MidiMsg) : Option Event :=
  let b0 := byte m.param1 0
  let pos := byte m.param1 1
  let b2 := byte m.param1 2
  if m.msg = IN_DATA ∧ b0 = 0x90 ∧ b2 = 0x0 then
    some (.Up (pos &&& 0xF, pos / 16 + 1))
  else if m.msg = IN_DATA ∧ b0 = 0x90 ∧ b2 = 0x7F then
    some (.Down (pos &&& 0xF, pos / 16 + 1))
  else if m.msg = IN_DATA ∧ b0 = 0xB0 ∧ b2 = 0x0 then
    some (.Up (pos &&& 0x7, 0))
  else if m.msg = IN_DATA ∧ b0 = 0xB0 ∧ b2 = 0x7F then
    some (.Down (pos &&& 0x7, 0))
  else
    none

/-- `enum LaunchpadError`: a translated driver error (with its raw code) or
an out-of-range grid coordinate. -/
inductive LaunchpadError where
  | MidiError : Nat → LaunchpadError
  | OutOfRange : Nat → Nat → LaunchpadError
  deriving DecidableEq, Repr

/-- The output device: `win_midi::OutDev` abstracted to its observable
behaviour, a fallible three-byte short-message send. -/
structure OutDev where
  send : Nat → Nat → Nat → Except Nat Unit

/-- `LaunchpadOut::clear`: sends `(0xB0, 0x00, 0x00)`. -/
def LaunchpadOut.clear (d : OutDev) : Except LaunchpadError Unit :=
  match d.send 0xB0 0x0 0x0 with
  | .ok _ => .ok ()
  | .error e => .error (.MidiError e)

/-- `LaunchpadOut::set_color`, matching the Rust `match pos` arms in order:
`(0..=7, 0)`, `(8, 0)`, `(0..=8, 1..=8)`, wildcard. -/
def LaunchpadOut.setColor (d : OutDev) (pos : Nat × Nat) (col : Color) :
    Except LaunchpadError Unit :=
  if pos.2 = 0 ∧ pos.1 ≤ 7 then
    match d.send 0xB0 (pos.1 ||| 0x68) col.toByte with
    | .ok _ => .ok ()
    | .error e => .error (.MidiError e)
  else if pos.2 = 0 ∧ pos.1 = 8 then
    .ok ()
  else if 1 ≤ pos.2 ∧ pos.2 ≤ 8 ∧ pos.1 ≤ 8 then
    match d.send 0x90 ((pos.2 - 1) * 16 + pos.1) col.toByte with
    | .ok _ => .ok ()
    | .error e => .error (.MidiError e)
  else
    .error (.OutOfRange pos.1 pos.2)

/-- `struct LaunchpadOutBuf`: the 81-byte light array plus the raw device. -/
structure LaunchpadOutBuf where
  colors : List Nat
  out_pad : OutDev

/-- The flat index `pos.0 as usize + (pos.1 as usize * 9)` into `colors`. -/
def colorIndex (pos : Nat × Nat) : Nat := pos.1 + pos.2 * 9

/-- `LaunchpadOutBuf::clear`: on device success zero the whole array,
on failure return the error and leave the array alone. -/
def LaunchpadOutBuf.clear (b : LaunchpadOutBuf) :
    LaunchpadOutBuf × Except LaunchpadError Unit :=
  match LaunchpadOut.clear b.out_pad with
  | .ok _ => ({ b with colors := b.colors.map fun _ => 0 }, .ok ())
  | .error e => (b, .error e)

/-- `LaunchpadOutBuf::get_color`: read the array byte and convert via
`From<u8> for Color`. -/
def LaunchpadOutBuf.getColor (b : LaunchpadOutBuf) (pos : Nat × Nat) : Color :=
  Color.ofByte (b.colors.getD (colorIndex pos) 0)

/-- `LaunchpadOutBuf::set_color`: forward to the device and update the
array byte only on success (`.map(|ret| { self.colors[..] = col.into(); ret })`). -/
def LaunchpadOutBuf.setColor (b : LaunchpadOutBuf) (pos : Nat × Nat) (col : Color) :
    LaunchpadOutBuf × Except LaunchpadError Unit :=
  match LaunchpadOut.setColor b.out_pad pos col with
  | .ok _ => ({ b with colors := b.colors.set (colorIndex pos) col.toByte }, .ok ())
  | .error e => (b, .error e)

/-! ## The slot table (`trait OptVec` on `Vec<Option<T>>` in `main.rs`) -/

/-- `OptVec::empty_index`: position of the first `None`, or the length when
every slot is occupied. -/
def emptyIndex {T : Type} : List (Option T) → Nat
  | [] => 0
  | none :: _ => 0
  | some _ :: rest => emptyIndex rest + 1

/-- `OptVec::get_inner`: `self.get(index).and_then(|opt| opt.as_ref())`. -/
def getInner {T : Type} (l : List (Option T)) (i : Nat) : Option T :=
  (l.get? i).bind id

/-- `OptVec::push_empty`: replace the first `None` slot, or append when all
slots are occupied; returns the new list and the index used. -/
def pushEmpty {T : Type} : List (Option T) → T → List (Option T) × Nat
  | [], item => ([some item], 0)
  | none :: rest, _item => (some _item :: rest, 0)
  | some x :: rest, item =>
    let r := pushEmpty rest item
    (some x :: r.1, r.2 + 1)

/-- `OptVec::take_at`: `self.get_mut(index)?.take()` — out of range leaves
the list unchanged and yields `none`; in range the slot is cleared and its
prior contents returned. -/
def takeAt {T : Type} (l : List (Option T)) (i : Nat) : List (Option T) × Option T :=
  match l.get? i with
  | none => (l, none)
  | some opt => (l.set i none, opt)

/-! ## The session router (`main.rs`) -/

/-- `fn index_to_pos(index) -> (index % 8, index / 8 + 1)`. -/
def index_to_pos (index : Nat) : Nat × Nat := (index % 8, index / 8 + 1)

/-- `fn pos_to_index(pos) -> pos.0 + (pos.1 - 1) * 8`. -/
def pos_to_index (pos : Nat × Nat) : Nat := pos.1 + (pos.2 - 1) * 8

/-- `struct State`: selected session index, buffered output pad, and the
session slot table.  The per-session `mpsc::Sender<String>` is abstracted
to an opaque `Nat` token. -/
structure RState where
  current : Option Nat
  out_pad : LaunchpadOutBuf
  out_vec : List (Option Nat)

/-- Session registration: the head of `ws_thread` — allocate a slot for the
sender and light the slot's position with the neutral color `0x11`. -/
def ws_register (s : RState) (tx : Nat) : RState × Nat :=
  let r := pushEmpty s.out_vec tx
  let pos := index_to_pos r.2
  ({ s with
      out_vec := r.1,
      out_pad := (s.out_pad.setColor pos (Color.ofByte 0x11)).1 }, r.2)

/-- A client text message: the `match &msg[..]` inside `ws_thread`'s loop
for the session at slot `index`. -/
def ws_message (s : RState) (index : Nat) (msg : String) : RState :=
  let pos := index_to_pos index
  if msg = "1" then
    if s.current = some index then
      let s1 := { s with out_pad := (s.out_pad.setColor pos Color.GREEN).1 }
      { s1 with out_pad := (s1.out_pad.setColor (0, 8) Color.GREEN).1 }
    else
      { s with out_pad := (s.out_pad.setColor pos (Color.ofByte 0x10)).1 }
  else if msg = "2" then
    if s.current = some index then
      let s1 := { s with out_pad := (s.out_pad.setColor pos Color.RED).1 }
      { s1 with out_pad := (s1.out_pad.setColor (0, 8) Color.RED).1 }
    else
      { s with out_pad := (s.out_pad.setColor pos (Color.ofByte 0x01)).1 }
  else
    s

/-- Session teardown: the tail of `ws_thread` — black out the session's
light and release its slot.  `current` is not touched. -/
def ws_unregister (s : RState) (index : Nat) : RState :=
  let s1 := { s with out_pad := (s.out_pad.setColor (index_to_pos index) Color.BLACK).1 }
  { s1 with out_vec := (takeAt s1.out_vec index).1 }

/-- The pad-matrix press handler: body of the `Event::Down((x, y @ 1..=7))`
arm of `pad_thread`.  Dims the previously selected light, brightens the
pressed one, mirrors it to the indicator at `(0, 8)` and updates `current`,
all guarded by `current != Some(index) && out_vec.get(index).is_some()`. -/
def padDown (s : RState) (x y : Nat) : RState :=
  let index := pos_to_index (x, y)
  if s.current ≠ some index ∧ index < s.out_vec.length then
    let s1 :=
      match s.current with
      | some current =>
        let pos := index_to_pos current
        let col := Color.ofByte ((s.out_pad.getColor pos).toByte / 3)
        { s with out_pad := (s.out_pad.setColor pos col).1 }
      | none => s
    let col := Color.ofByte ((s1.out_pad.getColor (x, y)).toByte * 3)
    let s2 := { s1 with out_pad := (s1.out_pad.setColor (x, y) col).1 }
    let s3 := { s2 with out_pad := (s2.out_pad.setColor (0, 8) col).1 }
    { s3 with current := some index }
  else
    s

/-- One iteration of `pad_thread`'s event loop: dispatch on the decoded
event, mirroring the Rust match arm order (`Down((x, y @ 1..=7))`, then
`Down((x @ 0..=4, 8))`, then the wildcard).  Returns the new state and the
list of `(sender-token, text)` messages forwarded to session channels. -/
def padThreadStep (s : RState) (e : Event) : RState × List (Nat × String) :=
  match e with
  | .Down (x, y) =>
    if 1 ≤ y ∧ y ≤ 7 then
      (padDown s x y, [])
    else if x ≤ 4 ∧ y = 8 then
      match s.current.bind fun c => getInner s.out_vec c with
      | some tx => (s, [(tx, toString x)])
      | none => (s, [])
    else
      (s, [])
  | .Up _ => (s, [])

/-! ## Helper lemmas -/

theorem getD_set_self {l : List Nat} {i v : Nat} (h : i < l.length) :
    (l.set i v).getD i 0 = v := by
  induction l generalizing i with
  | nil => simp at h
  | cons a t ih =>
    cases i with
    | zero => simp
    | succ n => simpa using ih (by simpa using h)

theorem getD_set_ne {l : List Nat} {i j v : Nat} (h : i ≠ j) :
    (l.set i v).getD j 0 = l.getD j 0 := by
  induction l generalizing i j with
  | nil => simp
  | cons a t ih =>
    cases i with
    | zero =>
      cases j with
      | zero => exact absurd rfl h
      | succ m => simp
    | succ n =>
      cases j with
      | zero => simp
      | succ m => simpa using ih (by omega)

theorem colorIndex_inj {p q : Nat × Nat} (hp : p.1 ≤ 8) (hq : q.1 ≤ 8)
    (h : colorIndex p = colorIndex q) : p = q := by
  cases p
  cases q
  unfold colorIndex at h
  simp at hp hq ⊢
  omega

theorem pos_index_inverse (i : Nat) : pos_to_index (index_to_pos i) = i := by
  unfold pos_to_index index_to_pos
  simp
  omega

/-- On a device whose sends all succeed, `set_color` at a geometrically
valid position writes exactly one array byte and reports success. -/
theorem setColor_ok (b : LaunchpadOutBuf) (pos : Nat × Nat) (col : Color)
    (hok : ∀ a c d, b.out_pad.send a c d = Except.ok ())
    (h1 : pos.1 ≤ 8) (h2 : pos.2 ≤ 8) :
    b.setColor pos col =
      ({ b with colors := b.colors.set (colorIndex pos) col.toByte }, Except.ok ()) := by
  cases pos with
  | mk x y =>
    unfold LaunchpadOutBuf.setColor LaunchpadOut.setColor
    by_cases hy : y = 0
    · subst hy
      by_cases hx : x ≤ 7
      · simp [hx, hok]
      · have hx8 : x = 8 := by omega
        subst hx8
        simp
    · have hy1 : 1 ≤ y := by omega
      simp at h1 h2
      simp [hy, hy1, h1, h2, hok]

theorem getInner_lt_length {T : Type} {l : List (Option T)} {i : Nat} {t : T}
    (h : getInner l i = some t) : i < l.length := by
  unfold getInner at h
  by_cases hi : i < l.length
  · exact hi
  · rw [List.get?_eq_none.2 (by omega)] at h
    simp at h

theorem get?_lt_length {T : Type} {l : List (Option T)} {i : Nat} {o : Option T}
    (h : l.get? i = some o) : i < l.length := by
  by_cases hi : i < l.length
  · exact hi
  · rw [List.get?_eq_none.2 (by omega)] at h
    simp at h

set_option maxRecDepth 4096 in
theorem and_fifteen : ∀ p, p < 256 → p &&& 15 = p % 16 := by decide

theorem byte_leBytes (b0 b1 b2 b3 : Nat) (h0 : b0 < 256) (h1 : b1 < 256)
    (h2 : b2 < 256) :
    byte (leBytes b0 b1 b2 b3) 0 = b0 ∧ byte (leBytes b0 b1 b2 b3) 1 = b1 ∧
      byte (leBytes b0 b1 b2 b3) 2 = b2 := by
  unfold byte leBytes
  norm_num
  omega

/-! ## Claims -/

/-- Claim C1: `LaunchpadOutBuf::set_color` updates the in-memory color array
at `pos` exactly when the underlying hardware send succeeds; when the send
(or `clear`) fails, the array is left unchanged and the error is returned
to the caller. -/
theorem buf_setColor_sync (b : LaunchpadOutBuf) (pos : Nat × Nat) (col : Color) :
    ((LaunchpadOut.setColor b.out_pad pos col).isOk →
      b.setColor pos col =
        ({ b with colors := b.colors.set (colorIndex pos) col.toByte }, Except.ok ())) ∧
    (∀ e, LaunchpadOut.setColor b.out_pad pos col = .error e →
      b.setColor pos col = (b, .error e)) ∧
    ((LaunchpadOut.clear b.out_pad).isOk →
      b.clear = ({ b with colors := b.colors.map fun _ => 0 }, Except.ok ())) ∧
    (∀ e, LaunchpadOut.clear b.out_pad = .error e → b.clear = (b, .error e)) := by
  refine ⟨fun hok => ?_, fun e herr => ?_, fun hok => ?_, fun e herr => ?_⟩
  · unfold LaunchpadOutBuf.setColor
    cases h : LaunchpadOut.setColor b.out_pad pos col with
    | ok u => rfl
    | error e => rw [h] at hok; simp [Except.isOk, Except.toBool] at hok
  · unfold LaunchpadOutBuf.setColor
    rw [herr]
  · unfold LaunchpadOutBuf.clear
    cases h : LaunchpadOut.clear b.out_pad with
    | ok u => rfl
    | error e => rw [h] at hok; simp [Except.isOk, Except.toBool] at hok
  · unfold LaunchpadOutBuf.clear
    rw [herr]

set_option maxRecDepth 10000 in
/-- Witness for C1: a concrete device that always succeeds, and one that
always fails, exercised through both branches of the theorem. -/
theorem buf_setColor_sync_witness :
    (LaunchpadOutBuf.setColor ⟨List.replicate 81 0, ⟨fun _ _ _ => .ok ()⟩⟩ (2, 3) Color.RED =
      (⟨(List.replicate 81 0).set 29 3, ⟨fun _ _ _ => .ok ()⟩⟩, Except.ok ())) ∧
    (LaunchpadOutBuf.setColor ⟨List.replicate 81 0, ⟨fun _ _ _ => .error 7⟩⟩ (2, 3) Color.RED =
      (⟨List.replicate 81 0, ⟨fun _ _ _ => .error 7⟩⟩, Except.error (.MidiError 7))) := by
  constructor
  · exact (buf_setColor_sync ⟨List.replicate 81 0, ⟨fun _ _ _ => .ok ()⟩⟩ (2, 3) Color.RED).1
      (by rfl)
  · exact (buf_setColor_sync ⟨List.replicate 81 0, ⟨fun _ _ _ => .error 7⟩⟩ (2, 3)
      Color.RED).2.1 (.MidiError 7) (by rfl)

/-- Claim C9: every way of constructing a `Color` masks the byte through
`0x33`, so both intensity nibbles stay bounded by 3, and converting a byte
to a `Color` and back yields the byte masked by `0x33`. -/
theorem color_mask_invariant :
    (∀ v : Nat, (Color.ofByte v).toByte = v &&& 0x33) ∧
    (∀ v : Nat, (Color.new v).toByte &&& 0x33 = (Color.new v).toByte) ∧
    (∀ p : Nat × Nat, (Color.ofPair p).toByte &&& 0x33 = (Color.ofPair p).toByte) ∧
    (Color.BLACK.toByte &&& 0x33 = Color.BLACK.toByte ∧
      Color.GREEN.toByte &&& 0x33 = Color.GREEN.toByte ∧
      Color.ORANGE.toByte &&& 0x33 = Color.ORANGE.toByte ∧
      Color.RED.toByte &&& 0x33 = Color.RED.toByte ∧
      Color.YELLOW.toByte &&& 0x33 = Color.YELLOW.toByte) ∧
    (∀ v : Nat, (Color.new v).red ≤ 3 ∧ (Color.new v).green ≤ 3) := by
  have h33 : (0x33 : Nat) &&& 0x33 = 0x33 := by decide
  refine ⟨fun v => rfl, fun v => ?_, fun p => ?_, by decide, fun v => ?_⟩
  · show (v &&& 0x33) &&& 0x33 = v &&& 0x33
    rw [Nat.and_assoc, h33]
  · show (_ &&& 0x33) &&& 0x33 = _ &&& 0x33
    rw [Nat.and_assoc, h33]
  · exact ⟨Nat.and_le_right, Nat.and_le_right⟩

/-- Claim C5, counterexample: the raw notification with status byte `0xB0`
(not `0x90`, hence outside the pad-matrix pattern of the claim), data byte
`0x68` and velocity `0x7F` is decoded to an event rather than filtered:
the decoder also recognizes function-row messages. -/
theorem decoder_nonmatrix_event :
    mapMidiMsg ⟨IN_DATA, 0x7F68B0⟩ = some (.Down (0, 0)) ∧
      byte 0x7F68B0 0 = 0xB0 ∧ byte 0x7F68B0 0 ≠ 0x90 := by decide

/-- Claim C5 (amended): the matrix velocity-on pattern decodes to a press
and velocity-off to a release for all `c ∈ [0,7]`, `r ∈ [1,8]`; conversely
every decoded event comes from status byte `0x90` (column `data1 & 0xF`,
row `data1 / 16 + 1`) or from the function-row status byte `0xB0`
(column `data1 & 0x7`, row `0`), with velocity `0x7F` for presses and
`0x00` for releases; everything else is filtered. -/
theorem decoder_characterization :
    (∀ c r b3, c ≤ 7 → 1 ≤ r → r ≤ 8 → b3 < 256 →
      mapMidiMsg ⟨IN_DATA, leBytes 0x90 ((r - 1) * 16 + c) 0x7F b3⟩ =
        some (.Down (c, r)) ∧
      mapMidiMsg ⟨IN_DATA, leBytes 0x90 ((r - 1) * 16 + c) 0x0 b3⟩ =
        some (.Up (c, r))) ∧
    (∀ m e, mapMidiMsg m = some e →
      m.msg = IN_DATA ∧
      ((byte m.param1 0 = 0x90 ∧ byte m.param1 2 = 0x7F ∧
          e = .Down (byte m.param1 1 &&& 0xF, byte m.param1 1 / 16 + 1)) ∨
       (byte m.param1 0 = 0x90 ∧ byte m.param1 2 = 0x0 ∧
          e = .Up (byte m.param1 1 &&& 0xF, byte m.param1 1 / 16 + 1)) ∨
       (byte m.param1 0 = 0xB0 ∧ byte m.param1 2 = 0x7F ∧
          e = .Down (byte m.param1 1 &&& 0x7, 0)) ∨
       (byte m.param1 0 = 0xB0 ∧ byte m.param1 2 = 0x0 ∧
          e = .Up (byte m.param1 1 &&& 0x7, 0)))) := by
  constructor
  · intro c r b3 hc hr1 hr8 hb3
    have hdata : (r - 1) * 16 + c < 256 := by omega
    have hbOn := byte_leBytes 0x90 ((r - 1) * 16 + c) 0x7F b3 (by norm_num) hdata
      (by norm_num)
    have hbOff := byte_leBytes 0x90 ((r - 1) * 16 + c) 0x0 b3 (by norm_num) hdata
      (by norm_num)
    have hcol : ((r - 1) * 16 + c) &&& 15 = c := by
      rw [and_fifteen _ hdata]
      omega
    have hrow : ((r - 1) * 16 + c) / 16 + 1 = r := by omega
    constructor
    · simp [mapMidiMsg, hbOn.1, hbOn.2.1, hbOn.2.2, hcol, hrow]
    · simp [mapMidiMsg, hbOff.1, hbOff.2.1, hbOff.2.2, hcol, hrow]
  · intro m e h
    simp only [mapMidiMsg] at h
    split at h
    · next hcond =>
        cases h
        exact ⟨hcond.1, Or.inr (Or.inl ⟨hcond.2.1, hcond.2.2, rfl⟩)⟩
    · split at h
      · next hcond =>
          cases h
          exact ⟨hcond.1, Or.inl ⟨hcond.2.1, hcond.2.2, rfl⟩⟩
      · split at h
        · next hcond =>
            cases h
            exact ⟨hcond.1, Or.inr (Or.inr (Or.inr ⟨hcond.2.1, hcond.2.2, rfl⟩))⟩
        · split at h
          · next hcond =>
              cases h
              exact ⟨hcond.1, Or.inr (Or.inr (Or.inl ⟨hcond.2.1, hcond.2.2, rfl⟩))⟩
          · cases h

/-- Witness for C5 (amended): the press pattern for column 2, row 3. -/
theorem decoder_characterization_witness :
    mapMidiMsg ⟨IN_DATA, leBytes 0x90 ((3 - 1) * 16 + 2) 0x7F 0⟩ =
      some (.Down (2, 3)) :=
  ((decoder_characterization.1 2 3 0 (by decide) (by decide) (by decide)
    (by decide)).1)

/-! ## Slot-table lemmas -/

theorem pushEmpty_snd {T : Type} (l : List (Option T)) (x : T) :
    (pushEmpty l x).2 = emptyIndex l := by
  induction l with
  | nil => rfl
  | cons a t ih =>
    cases a with
    | none => rfl
    | some v => simp [pushEmpty, emptyIndex, ih]

theorem emptyIndex_le_length {T : Type} (l : List (Option T)) :
    emptyIndex l ≤ l.length := by
  induction l with
  | nil => simp [emptyIndex]
  | cons a t ih =>
    cases a with
    | none => simp [emptyIndex]
    | some v => simp [emptyIndex]; omega

theorem get?_emptyIndex {T : Type} (l : List (Option T))
    (h : emptyIndex l < l.length) : l.get? (emptyIndex l) = some none := by
  induction l with
  | nil => simp at h
  | cons a t ih =>
    cases a with
    | none => rfl
    | some v =>
      simp only [emptyIndex] at h ⊢
      simpa using ih (by simpa using h)

theorem pushEmpty_fst_set {T : Type} (l : List (Option T)) (x : T)
    (h : emptyIndex l < l.length) :
    (pushEmpty l x).1 = l.set (emptyIndex l) (some x) := by
  induction l with
  | nil => simp at h
  | cons a t ih =>
    cases a with
    | none => rfl
    | some v =>
      simp only [pushEmpty, emptyIndex, List.set]
      simp only [emptyIndex, List.length_cons] at h
      rw [ih (by omega)]

theorem pushEmpty_fst_append {T : Type} (l : List (Option T)) (x : T)
    (h : l.length ≤ emptyIndex l) :
    (pushEmpty l x).1 = l ++ [some x] := by
  induction l with
  | nil => rfl
  | cons a t ih =>
    cases a with
    | none => simp [emptyIndex] at h
    | some v =>
      simp only [pushEmpty, List.cons_append]
      simp only [emptyIndex, List.length_cons] at h
      rw [ih (by omega)]

theorem getInner_isSome_of_lt_emptyIndex {T : Type} (l : List (Option T))
    (j : Nat) (h : j < emptyIndex l) : (getInner l j).isSome := by
  induction l generalizing j with
  | nil => simp [emptyIndex] at h
  | cons a t ih =>
    cases a with
    | none => simp [emptyIndex] at h
    | some v =>
      cases j with
      | zero => simp [getInner]
      | succ n =>
        simp only [emptyIndex] at h
        simpa [getInner, List.get?] using ih n (by omega)

theorem emptyIndex_le_of_none {T : Type} (l : List (Option T)) (k : Nat)
    (hk : l.get? k = some none) : emptyIndex l ≤ k := by
  induction l generalizing k with
  | nil => simp at hk
  | cons a t ih =>
    cases a with
    | none => simp [emptyIndex]
    | some v =>
      cases k with
      | zero => simp at hk
      | succ n =>
        simp only [emptyIndex]
        have := ih n (by simpa using hk)
        omega

theorem pushEmpty_get?_ne {T : Type} (l : List (Option T)) (x : T) (j : Nat)
    (h : j ≠ emptyIndex l) : (pushEmpty l x).1.get? j = l.get? j := by
  by_cases hl : emptyIndex l < l.length
  · rw [pushEmpty_fst_set l x hl]
    rw [List.get?_eq_getElem?, List.get?_eq_getElem?,
      List.getElem?_set_ne (by omega)]
  · rw [pushEmpty_fst_append l x (by omega)]
    have hlen : emptyIndex l = l.length := le_antisymm (emptyIndex_le_length l) (by omega)
    by_cases hj : j < l.length
    · rw [List.get?_eq_getElem?, List.get?_eq_getElem?, List.getElem?_append]
      rw [if_pos hj]
    · have h1 : l.get? j = none := List.get?_eq_none.2 (by omega)
      have h2 : (l ++ [some x]).get? j = none := by
        refine List.get?_eq_none.2 ?_
        rw [List.length_append]
        simp only [List.length_singleton]
        omega
      rw [h1, h2]

theorem takeAt_get?_ne {T : Type} (l : List (Option T)) (i j : Nat)
    (h : j ≠ i) : (takeAt l i).1.get? j = l.get? j := by
  unfold takeAt
  cases hi : l.get? i with
  | none => rfl
  | some o =>
    simp only
    rw [List.get?_eq_getElem?, List.get?_eq_getElem?, List.getElem?_set_ne (by omega)]

/-- `allocSeq N`: starting from the empty table, allocate `N` items
(the item stored at step `j` is simply `j`). -/
def allocSeq : Nat → List (Option Nat)
  | 0 => []
  | n + 1 => (pushEmpty (allocSeq n) n).1

theorem emptyIndex_map_some {T : Type} (l : List T) :
    emptyIndex (l.map some) = l.length := by
  induction l with
  | nil => rfl
  | cons a t ih => simp [emptyIndex, ih]

theorem allocSeq_eq (N : Nat) : allocSeq N = (List.range N).map some := by
  induction N with
  | zero => rfl
  | succ n ih =>
    show (pushEmpty (allocSeq n) n).1 = _
    rw [ih, pushEmpty_fst_append _ _ (by rw [emptyIndex_map_some]; simp),
      List.range_succ]
    simp

/-- Claim C6: the slot table reuses the lowest-numbered free slot.
Part 1: allocating `N` items, releasing item `k < N` and allocating again
reuses index `k`.  Part 2: `push_empty` always returns the first free
index (every lower slot is occupied), overwriting that slot when one is
free and appending otherwise.  Part 3 and 4: neither `push_empty` nor
`take_at` moves or alters any other slot, so an occupied slot's index
never changes while it is alive. -/
theorem slot_reuse (x : Nat) :
    (∀ N k, k < N → (pushEmpty ((takeAt (allocSeq N) k).1) x).2 = k) ∧
    (∀ (l : List (Option Nat)),
      (pushEmpty l x).2 = emptyIndex l ∧
      (∀ j, j < emptyIndex l → (getInner l j).isSome) ∧
      (emptyIndex l < l.length →
        l.get? (emptyIndex l) = some none ∧
        (pushEmpty l x).1 = l.set (emptyIndex l) (some x)) ∧
      (l.length ≤ emptyIndex l → (pushEmpty l x).1 = l ++ [some x])) ∧
    (∀ (l : List (Option Nat)) j, j ≠ (pushEmpty l x).2 →
      (pushEmpty l x).1.get? j = l.get? j) ∧
    (∀ (l : List (Option Nat)) i j, j ≠ i →
      (takeAt l i).1.get? j = l.get? j) := by
  refine ⟨?_, ?_, ?_, ?_⟩
  · intro N k hk
    have hget : (allocSeq N).get? k = some (some k) := by
      rw [allocSeq_eq, List.get?_eq_getElem?, List.getElem?_map,
        List.getElem?_range hk]
      rfl
    have hlen : (allocSeq N).length = N := by rw [allocSeq_eq]; simp
    have htake : (takeAt (allocSeq N) k).1 = (allocSeq N).set k none := by
      unfold takeAt
      rw [hget]
    rw [pushEmpty_snd, htake]
    have hknone : ((allocSeq N).set k none).get? k = some none := by
      rw [List.get?_eq_getElem?, List.getElem?_set_self] <;> simp [hlen, hk]
    have hub := emptyIndex_le_of_none _ k hknone
    have hlb : ∀ j, j < k → ((allocSeq N).set k none).get? j = some (some j) := by
      intro j hj
      rw [List.get?_eq_getElem?, List.getElem?_set_ne (by omega),
        ← List.get?_eq_getElem?, allocSeq_eq, List.get?_eq_getElem?,
        List.getElem?_map, List.getElem?_range (by omega)]
      rfl
    by_contra hne
    have hlt : emptyIndex ((allocSeq N).set k none) < k := by omega
    have := get?_emptyIndex ((allocSeq N).set k none)
      (by rw [List.length_set, hlen]; omega)
    rw [hlb _ hlt] at this
    simp at this
  · intro l
    exact ⟨pushEmpty_snd l x, fun j hj => getInner_isSome_of_lt_emptyIndex l j hj,
      fun h => ⟨get?_emptyIndex l h, pushEmpty_fst_set l x h⟩,
      fun h => pushEmpty_fst_append l x h⟩
  · intro l j hj
    rw [pushEmpty_snd] at hj
    exact pushEmpty_get?_ne l x j hj
  · intro l i j hj
    exact takeAt_get?_ne l i j hj

/-- Witness for C6: allocate three items, free slot 1, allocate again —
slot 1 is reused. -/
theorem slot_reuse_witness :
    (pushEmpty ((takeAt (allocSeq 3) 1).1) 99).2 = 1 :=
  (slot_reuse 99).1 3 1 (by decide)

/-- Claim C7: a function-row press (column 0–4, router row 8) with a
selected, registered session forwards exactly the button's index as text to
that session's sender and leaves the router state unchanged; with no
session selected it is a no-op. -/
theorem fn_press_forwards (s : RState) (x : Nat) (hx : x ≤ 4) :
    (∀ c tx, s.current = some c → getInner s.out_vec c = some tx →
      padThreadStep s (.Down (x, 8)) = (s, [(tx, toString x)])) ∧
    (s.current = none → padThreadStep s (.Down (x, 8)) = (s, [])) := by
  constructor
  · intro c tx hc htx
    simp [padThreadStep, hc, htx, hx]
  · intro hc
    simp [padThreadStep, hc, hx]

/-- Witness for C7: session 0 with sender token 5 is selected; pressing
function button 3 forwards the text rendering of 3 to token 5. -/
theorem fn_press_forwards_witness :
    padThreadStep ⟨some 0, ⟨List.replicate 81 0, ⟨fun _ _ _ => .ok ()⟩⟩, [some 5]⟩
        (.Down (3, 8)) =
      (⟨some 0, ⟨List.replicate 81 0, ⟨fun _ _ _ => .ok ()⟩⟩, [some 5]⟩,
        [(5, toString 3)]) :=
  (fn_press_forwards ⟨some 0, ⟨List.replicate 81 0, ⟨fun _ _ _ => .ok ()⟩⟩, [some 5]⟩
    3 (by decide)).1 0 5 rfl rfl

/-- Claim C8: unregistering a registered session blacks out its light,
clears its slot (making it reusable by the next registration, which always
picks an index no larger than the freed one), and leaves `current`
untouched — even when it still points at the freed slot. -/
theorem unregister_frees_slot (s : RState)
    (hok : ∀ a b c, s.out_pad.out_pad.send a b c = Except.ok ())
    (hlen : s.out_pad.colors.length = 81)
    (i tx : Nat) (hreg : getInner s.out_vec i = some tx) (hi : i < 64) :
    (ws_unregister s i).out_pad.getColor (index_to_pos i) = Color.BLACK ∧
    (ws_unregister s i).out_vec = s.out_vec.set i none ∧
    (ws_unregister s i).current = s.current ∧
    getInner (ws_unregister s i).out_vec i = none ∧
    (∀ tx2 : Nat, (pushEmpty ((ws_unregister s i).out_vec) tx2).2 ≤ i) := by
  have hget : s.out_vec.get? i = some (some tx) := by
    unfold getInner at hreg
    cases hg : s.out_vec.get? i with
    | none => rw [hg] at hreg; simp at hreg
    | some o =>
      rw [hg] at hreg
      simp at hreg
      rw [hreg]
  have hpos1 : (index_to_pos i).1 ≤ 8 := by
    unfold index_to_pos
    simp
    omega
  have hpos2 : (index_to_pos i).2 ≤ 8 := by
    unfold index_to_pos
    simp
    omega
  have hidx : colorIndex (index_to_pos i) < 81 := by
    unfold colorIndex index_to_pos
    simp
    omega
  have hset := setColor_ok s.out_pad (index_to_pos i) Color.BLACK hok hpos1 hpos2
  have hstate : ws_unregister s i =
      ⟨s.current, ⟨s.out_pad.colors.set (colorIndex (index_to_pos i)) 0,
        s.out_pad.out_pad⟩, s.out_vec.set i none⟩ := by
    unfold ws_unregister
    rw [hset]
    unfold takeAt
    simp only [hget]
    rfl
  rw [hstate]
  have hnone : (s.out_vec.set i none).get? i = some none := by
    rw [List.get?_eq_getElem?]
    rw [List.getElem?_set_self]
    exact get?_lt_length hget
  refine ⟨?_, rfl, rfl, ?_, ?_⟩
  · unfold LaunchpadOutBuf.getColor
    simp only
    rw [getD_set_self (by rw [hlen]; exact hidx)]
    decide
  · unfold getInner
    simp only [hnone]
    rfl
  · intro tx2
    rw [pushEmpty_snd]
    exact emptyIndex_le_of_none _ i hnone

set_option maxRecDepth 10000 in
/-- Witness for C8: a two-session table with session 1 selected;
unregistering session 1 blacks its light at `(1, 1)`, frees slot 1 and
leaves `current` still pointing at index 1. -/
theorem unregister_frees_slot_witness :
    (ws_unregister ⟨some 1, ⟨List.replicate 81 0, ⟨fun _ _ _ => .ok ()⟩⟩,
        [some 5, some 6]⟩ 1).out_pad.getColor (index_to_pos 1) = Color.BLACK ∧
    (ws_unregister ⟨some 1, ⟨List.replicate 81 0, ⟨fun _ _ _ => .ok ()⟩⟩,
        [some 5, some 6]⟩ 1).out_vec = [some 5, some 6].set 1 none ∧
    (ws_unregister ⟨some 1, ⟨List.replicate 81 0, ⟨fun _ _ _ => .ok ()⟩⟩,
        [some 5, some 6]⟩ 1).current = some 1 ∧
    getInner (ws_unregister ⟨some 1, ⟨List.replicate 81 0, ⟨fun _ _ _ => .ok ()⟩⟩,
        [some 5, some 6]⟩ 1).out_vec 1 = none ∧
    (∀ tx2 : Nat, (pushEmpty ((ws_unregister ⟨some 1,
        ⟨List.replicate 81 0, ⟨fun _ _ _ => .ok ()⟩⟩,
        [some 5, some 6]⟩ 1).out_vec) tx2).2 ≤ 1) :=
  unregister_frees_slot ⟨some 1, ⟨List.replicate 81 0, ⟨fun _ _ _ => .ok ()⟩⟩,
    [some 5, some 6]⟩ (fun _ _ _ => rfl) (by simp) 1 6 rfl (by decide)

/-- Claim C4 (amended): for a registered session at a slot index below 56
(own pad inside the matrix rows 1..7), a client code of `"1"` from the
selected session paints both that session's light and the function-row
indicator `(0, 8)` with the GREEN encoding `0x30`; from a non-selected
session only the session's own light changes, to the provisional encoding
`0x10`, with the indicator and every other light untouched; any code other
than `"1"` or `"2"` leaves the state entirely unchanged.  (The 57th
session's own cell is the indicator itself: see the counterexample on
`reg57`.) -/
theorem client_message_colors (s : RState)
    (hok : ∀ a b c, s.out_pad.out_pad.send a b c = Except.ok ())
    (hlen : s.out_pad.colors.length = 81)
    (i tx : Nat) (hreg : getInner s.out_vec i = some tx) (hi : i < 56) :
    (s.current = some i →
      (ws_message s i "1").out_pad.getColor (index_to_pos i) = Color.GREEN ∧
      (ws_message s i "1").out_pad.getColor (0, 8) = Color.GREEN ∧
      (∀ j, j ≠ colorIndex (index_to_pos i) → j ≠ colorIndex (0, 8) →
        (ws_message s i "1").out_pad.colors.getD j 0 = s.out_pad.colors.getD j 0) ∧
      (ws_message s i "1").current = s.current ∧
      (ws_message s i "1").out_vec = s.out_vec) ∧
    (s.current ≠ some i →
      (ws_message s i "1").out_pad.getColor (index_to_pos i) = Color.ofByte 0x10 ∧
      (ws_message s i "1").out_pad.getColor (0, 8) = s.out_pad.getColor (0, 8) ∧
      (∀ j, j ≠ colorIndex (index_to_pos i) →
        (ws_message s i "1").out_pad.colors.getD j 0 = s.out_pad.colors.getD j 0) ∧
      (ws_message s i "1").current = s.current ∧
      (ws_message s i "1").out_vec = s.out_vec) ∧
    (∀ m, m ≠ "1" → m ≠ "2" → ws_message s i m = s) := by
  have hpos1 : (index_to_pos i).1 ≤ 8 := by
    unfold index_to_pos
    simp
    omega
  have hpos2 : (index_to_pos i).2 ≤ 8 := by
    unfold index_to_pos
    simp
    omega
  have hidx : colorIndex (index_to_pos i) < 81 := by
    unfold colorIndex index_to_pos
    simp
    omega
  have hind : colorIndex (index_to_pos i) ≠ colorIndex (0, 8) := by
    unfold colorIndex index_to_pos
    simp
    omega
  refine ⟨fun hc => ?_, fun hc => ?_, fun m hm1 hm2 => ?_⟩
  · have hstate : ws_message s i "1" =
        ⟨s.current, ⟨(s.out_pad.colors.set (colorIndex (index_to_pos i))
            Color.GREEN.toByte).set (colorIndex (0, 8)) Color.GREEN.toByte,
          s.out_pad.out_pad⟩, s.out_vec⟩ := by
      unfold ws_message
      rw [if_pos rfl, if_pos hc]
      rw [setColor_ok s.out_pad _ _ hok hpos1 hpos2]
      simp only
      rw [setColor_ok ⟨s.out_pad.colors.set (colorIndex (index_to_pos i))
          Color.GREEN.toByte, s.out_pad.out_pad⟩ (0, 8) Color.GREEN hok
          (by norm_num) (by norm_num)]
    rw [hstate]
    refine ⟨?_, ?_, fun j hj1 hj2 => ?_, rfl, rfl⟩
    · unfold LaunchpadOutBuf.getColor
      simp only
      rw [getD_set_ne (Ne.symm hind), getD_set_self (by rw [hlen]; exact hidx)]
      decide
    · unfold LaunchpadOutBuf.getColor
      simp only
      rw [getD_set_self (by rw [List.length_set, hlen]; decide)]
      decide
    · simp only
      rw [getD_set_ne (Ne.symm hj2), getD_set_ne (Ne.symm hj1)]
  · have hstate : ws_message s i "1" =
        ⟨s.current, ⟨s.out_pad.colors.set (colorIndex (index_to_pos i))
            (Color.ofByte 0x10).toByte, s.out_pad.out_pad⟩, s.out_vec⟩ := by
      unfold ws_message
      rw [if_pos rfl, if_neg hc]
      rw [setColor_ok s.out_pad _ _ hok hpos1 hpos2]
    rw [hstate]
    refine ⟨?_, ?_, fun j hj1 => ?_, rfl, rfl⟩
    · unfold LaunchpadOutBuf.getColor
      simp only
      rw [getD_set_self (by rw [hlen]; exact hidx)]
      decide
    · unfold LaunchpadOutBuf.getColor
      simp only
      rw [getD_set_ne hind]
    · simp only
      rw [getD_set_ne (Ne.symm hj1)]
  · unfold ws_message
    rw [if_neg hm1, if_neg hm2]

set_option maxRecDepth 10000 in
/-- Witness for C4: two registered sessions, session 0 selected.  A `"1"`
from selected session 0 turns its light and the indicator GREEN; a `"1"`
from non-selected session 1 only sets its own light to `0x10`; a `"9"`
changes nothing. -/
theorem client_message_colors_witness :
    ((ws_message ⟨some 0, ⟨List.replicate 81 0, ⟨fun _ _ _ => .ok ()⟩⟩,
        [some 5, some 6]⟩ 0 "1").out_pad.getColor (index_to_pos 0) = Color.GREEN ∧
      (ws_message ⟨some 0, ⟨List.replicate 81 0, ⟨fun _ _ _ => .ok ()⟩⟩,
        [some 5, some 6]⟩ 0 "1").out_pad.getColor (0, 8) = Color.GREEN) ∧
    (ws_message ⟨some 0, ⟨List.replicate 81 0, ⟨fun _ _ _ => .ok ()⟩⟩,
        [some 5, some 6]⟩ 1 "1").out_pad.getColor (index_to_pos 1) =
      Color.ofByte 0x10 ∧
    ws_message ⟨some 0, ⟨List.replicate 81 0, ⟨fun _ _ _ => .ok ()⟩⟩,
        [some 5, some 6]⟩ 0 "9" =
      ⟨some 0, ⟨List.replicate 81 0, ⟨fun _ _ _ => .ok ()⟩⟩, [some 5, some 6]⟩ := by
  refine ⟨⟨?_, ?_⟩, ?_, ?_⟩
  · exact ((client_message_colors ⟨some 0, ⟨List.replicate 81 0, ⟨fun _ _ _ => .ok ()⟩⟩,
      [some 5, some 6]⟩ (fun _ _ _ => rfl) (by simp) 0 5 rfl (by decide)).1 rfl).1
  · exact ((client_message_colors ⟨some 0, ⟨List.replicate 81 0, ⟨fun _ _ _ => .ok ()⟩⟩,
      [some 5, some 6]⟩ (fun _ _ _ => rfl) (by simp) 0 5 rfl (by decide)).1 rfl).2.1
  · exact ((client_message_colors ⟨some 0, ⟨List.replicate 81 0, ⟨fun _ _ _ => .ok ()⟩⟩,
      [some 5, some 6]⟩ (fun _ _ _ => rfl) (by simp) 1 6 rfl (by decide)).2.1
      (by decide)).1
  · exact (client_message_colors ⟨some 0, ⟨List.replicate 81 0, ⟨fun _ _ _ => .ok ()⟩⟩,
      [some 5, some 6]⟩ (fun _ _ _ => rfl) (by simp) 0 5 rfl (by decide)).2.2 "9"
      (by decide) (by decide)

/-! ## Pad-press characterization lemmas -/

theorem padDown_guard_false (s : RState) (x y : Nat)
    (h : ¬(s.current ≠ some (pos_to_index (x, y)) ∧
        pos_to_index (x, y) < s.out_vec.length)) :
    padDown s x y = s := by
  unfold padDown
  rw [if_neg h]

/-- Dispatch: a `Down` event with a row in `1..=7` lands in the pad-matrix
arm of `pad_thread`. -/
theorem padThreadStep_matrix (s : RState) (x y : Nat) (hy1 : 1 ≤ y) (hy7 : y ≤ 7) :
    padThreadStep s (.Down (x, y)) = (padDown s x y, []) :=
  if_pos ⟨hy1, hy7⟩

/-- With no previous selection, a guarded pad press brightens the pressed
cell, mirrors the brightened color to the indicator cell 72 and selects the
pressed index. -/
theorem padDown_of_none (s : RState)
    (hok : ∀ a b c, s.out_pad.out_pad.send a b c = Except.ok ())
    (x y : Nat) (hx : x ≤ 8) (hy7 : y ≤ 7)
    (hc : s.current = none) (hlt : pos_to_index (x, y) < s.out_vec.length) :
    padDown s x y =
      ⟨some (pos_to_index (x, y)),
        ⟨(s.out_pad.colors.set (colorIndex (x, y))
            (Color.ofByte ((s.out_pad.getColor (x, y)).toByte * 3)).toByte).set 72
            (Color.ofByte ((s.out_pad.getColor (x, y)).toByte * 3)).toByte,
          s.out_pad.out_pad⟩,
        s.out_vec⟩ := by
  unfold padDown
  rw [if_pos ⟨by rw [hc]; exact fun h => Option.noConfusion h, hlt⟩]
  rw [hc]
  simp only
  rw [setColor_ok s.out_pad (x, y) _ hok (by simpa using hx) (by simp; omega)]
  simp only
  rw [setColor_ok ⟨s.out_pad.colors.set (colorIndex (x, y))
      (Color.ofByte ((s.out_pad.getColor (x, y)).toByte * 3)).toByte,
      s.out_pad.out_pad⟩ (0, 8) _ hok (by norm_num) (by norm_num)]
  rfl

/-- With session `c` previously selected and a different index pressed,
the guarded pad press dims cell `c`, brightens the pressed cell from its
old value, mirrors the brightened color to the indicator and selects the
pressed index. -/
theorem padDown_of_some (s : RState)
    (hok : ∀ a b c, s.out_pad.out_pad.send a b c = Except.ok ())
    (x y c : Nat) (hx : x ≤ 8) (hy1 : 1 ≤ y) (hy7 : y ≤ 7) (hcb : c < 56)
    (hc : s.current = some c) (hne : c ≠ pos_to_index (x, y))
    (hlt : pos_to_index (x, y) < s.out_vec.length) :
    padDown s x y =
      ⟨some (pos_to_index (x, y)),
        ⟨((s.out_pad.colors.set (colorIndex (index_to_pos c))
              (Color.ofByte ((s.out_pad.getColor (index_to_pos c)).toByte / 3)).toByte).set
            (colorIndex (x, y))
            (Color.ofByte ((s.out_pad.getColor (x, y)).toByte * 3)).toByte).set 72
            (Color.ofByte ((s.out_pad.getColor (x, y)).toByte * 3)).toByte,
          s.out_pad.out_pad⟩,
        s.out_vec⟩ := by
  have hpos1 : (index_to_pos c).1 ≤ 8 := by
    unfold index_to_pos
    simp
    omega
  have hpos2 : (index_to_pos c).2 ≤ 8 := by
    unfold index_to_pos
    simp
    omega
  have hpne : colorIndex (index_to_pos c) ≠ colorIndex (x, y) := by
    intro h
    apply hne
    have := colorIndex_inj hpos1 (by simpa using hx) h
    rw [← pos_index_inverse c, this]
  unfold padDown
  rw [if_pos ⟨by rw [hc]; exact fun h => hne (Option.some.inj h), hlt⟩]
  rw [hc]
  simp only
  rw [setColor_ok s.out_pad (index_to_pos c) _ hok hpos1 hpos2]
  simp only
  have hget : LaunchpadOutBuf.getColor ⟨s.out_pad.colors.set
      (colorIndex (index_to_pos c))
      (Color.ofByte ((s.out_pad.getColor (index_to_pos c)).toByte / 3)).toByte,
      s.out_pad.out_pad⟩ (x, y) = s.out_pad.getColor (x, y) := by
    unfold LaunchpadOutBuf.getColor
    simp only
    rw [getD_set_ne hpne]
  rw [hget]
  rw [setColor_ok ⟨s.out_pad.colors.set (colorIndex (index_to_pos c))
      (Color.ofByte ((s.out_pad.getColor (index_to_pos c)).toByte / 3)).toByte,
      s.out_pad.out_pad⟩ (x, y) _ hok (by simpa using hx) (by simp; omega)]
  simp only
  rw [setColor_ok ⟨(s.out_pad.colors.set (colorIndex (index_to_pos c))
      (Color.ofByte ((s.out_pad.getColor (index_to_pos c)).toByte / 3)).toByte).set
      (colorIndex (x, y)) (Color.ofByte ((s.out_pad.getColor (x, y)).toByte * 3)).toByte,
      s.out_pad.out_pad⟩ (0, 8) _ hok (by norm_num) (by norm_num)]
  rfl

theorem ofByte_toByte (v : Nat) :
    Color.ofByte (Color.ofByte v).toByte = Color.ofByte v := by
  have h33 : (0x33 : Nat) &&& 0x33 = 0x33 := by decide
  unfold Color.ofByte Color.new Color.toByte
  rw [Nat.and_assoc, h33]

/-- Claim C2 (amended): pressing the pad of the currently selected session
is a complete no-op; pressing a different, registered session's pad, with
both the selected and the pressed slot index below 56 — positions inside
the pad-matrix rows 1..7 — dims the previously selected light (byte
divided by 3, re-masked), brightens the pressed light (byte times 3,
re-masked), mirrors the brightened color to the function-row indicator
`(0, 8)` and selects the pressed index, leaving the session table
untouched.  (A selected index 56 sits on the indicator cell itself and is
not demoted: see the counterexample on `sel56`.) -/
theorem press_selects_session (s : RState)
    (hok : ∀ a b c, s.out_pad.out_pad.send a b c = Except.ok ())
    (hlen : s.out_pad.colors.length = 81) :
    (∀ x y, 1 ≤ y → y ≤ 7 → s.current = some (pos_to_index (x, y)) →
      padThreadStep s (.Down (x, y)) = (s, [])) ∧
    (∀ i c tx, s.current = some c → c ≠ i → c < 56 → i < 56 →
      getInner s.out_vec i = some tx →
      (padThreadStep s (.Down (index_to_pos i))).1.current = some i ∧
      (padThreadStep s (.Down (index_to_pos i))).1.out_pad.getColor (index_to_pos c) =
        Color.ofByte ((s.out_pad.getColor (index_to_pos c)).toByte / 3) ∧
      (padThreadStep s (.Down (index_to_pos i))).1.out_pad.getColor (index_to_pos i) =
        Color.ofByte ((s.out_pad.getColor (index_to_pos i)).toByte * 3) ∧
      (padThreadStep s (.Down (index_to_pos i))).1.out_pad.getColor (0, 8) =
        Color.ofByte ((s.out_pad.getColor (index_to_pos i)).toByte * 3) ∧
      (padThreadStep s (.Down (index_to_pos i))).1.out_vec = s.out_vec ∧
      (padThreadStep s (.Down (index_to_pos i))).2 = []) := by
  constructor
  · intro x y hy1 hy7 hc
    rw [padThreadStep_matrix s x y hy1 hy7]
    rw [padDown_guard_false s x y (fun h => h.1 hc)]
  · intro i c tx hc hne hcb hib hreg
    have hx : i % 8 ≤ 8 := by omega
    have hy1 : 1 ≤ i / 8 + 1 := by omega
    have hy7 : i / 8 + 1 ≤ 7 := by omega
    have hpi : pos_to_index (i % 8, i / 8 + 1) = i := pos_index_inverse i
    have hlt : pos_to_index (i % 8, i / 8 + 1) < s.out_vec.length := by
      rw [hpi]
      exact getInner_lt_length hreg
    have hne' : c ≠ pos_to_index (i % 8, i / 8 + 1) := by
      rw [hpi]
      exact hne
    have hstep : padThreadStep s (.Down (index_to_pos i)) =
        (padDown s (i % 8) (i / 8 + 1), []) :=
      padThreadStep_matrix s (i % 8) (i / 8 + 1) hy1 hy7
    have hpd := padDown_of_some s hok (i % 8) (i / 8 + 1) c hx hy1 hy7 hcb hc hne' hlt
    have hidx_c : colorIndex (index_to_pos c) < 81 := by
      unfold colorIndex index_to_pos
      simp
      omega
    have hidx_i : colorIndex (i % 8, i / 8 + 1) < 81 := by
      unfold colorIndex
      simp
      omega
    have hne72c : (72 : Nat) ≠ colorIndex (index_to_pos c) := by
      unfold colorIndex index_to_pos
      simp
      omega
    have hne72i : (72 : Nat) ≠ colorIndex (i % 8, i / 8 + 1) := by
      unfold colorIndex
      simp
      omega
    have hneci : colorIndex (i % 8, i / 8 + 1) ≠ colorIndex (index_to_pos c) := by
      unfold colorIndex index_to_pos
      simp
      omega
    have hpos_eq : index_to_pos i = (i % 8, i / 8 + 1) := rfl
    rw [hstep]
    simp only
    rw [hpd, hpos_eq, hpi]
    refine ⟨rfl, ?_, ?_, ?_, rfl, trivial⟩
    · unfold LaunchpadOutBuf.getColor
      simp only
      rw [getD_set_ne hne72c, getD_set_ne hneci,
        getD_set_self (by rw [hlen]; exact hidx_c)]
      exact ofByte_toByte _
    · unfold LaunchpadOutBuf.getColor
      simp only
      rw [getD_set_ne hne72i,
        getD_set_self (by rw [List.length_set, hlen]; exact hidx_i)]
      exact ofByte_toByte _
    · unfold LaunchpadOutBuf.getColor
      simp only
      rw [show colorIndex (0, 8) = 72 from rfl,
        getD_set_self (by rw [List.length_set, List.length_set, hlen]; omega)]
      exact ofByte_toByte _

set_option maxRecDepth 10000 in
/-- Witness for C2: two registered sessions with session 0 selected.
Pressing session 0's own pad changes nothing; pressing session 1's pad
selects index 1, dims light 0, brightens light 1 and mirrors it at the
indicator. -/
theorem press_selects_session_witness :
    padThreadStep ⟨some 0, ⟨List.replicate 81 0, ⟨fun _ _ _ => .ok ()⟩⟩,
        [some 5, some 6]⟩ (.Down (0, 1)) =
      (⟨some 0, ⟨List.replicate 81 0, ⟨fun _ _ _ => .ok ()⟩⟩, [some 5, some 6]⟩, []) ∧
    (padThreadStep ⟨some 0, ⟨List.replicate 81 0, ⟨fun _ _ _ => .ok ()⟩⟩,
        [some 5, some 6]⟩ (.Down (index_to_pos 1))).1.current = some 1 := by
  constructor
  · exact (press_selects_session ⟨some 0, ⟨List.replicate 81 0, ⟨fun _ _ _ => .ok ()⟩⟩,
      [some 5, some 6]⟩ (fun _ _ _ => rfl) (by simp)).1 0 1 (by decide) (by decide) rfl
  · exact ((press_selects_session ⟨some 0, ⟨List.replicate 81 0, ⟨fun _ _ _ => .ok ()⟩⟩,
      [some 5, some 6]⟩ (fun _ _ _ => rfl) (by simp)).2 1 0 6 rfl (by decide)
      (by decide) (by decide) rfl).1

/-- Claim C10: the press guard tests only "not already selected" and
"index below the table length", not occupancy.  A press whose index is at
or beyond the table length changes nothing; a press on an in-range but
empty (released) slot is selected, brightened and mirrored to the
indicator all the same. -/
theorem press_guard_shallow (s : RState)
    (hok : ∀ a b c, s.out_pad.out_pad.send a b c = Except.ok ())
    (hlen : s.out_pad.colors.length = 81) :
    (∀ x y, 1 ≤ y → y ≤ 7 → s.out_vec.length ≤ pos_to_index (x, y) →
      padThreadStep s (.Down (x, y)) = (s, [])) ∧
    (∀ i, s.current = none → s.out_vec.get? i = some none → i < 56 →
      (padThreadStep s (.Down (index_to_pos i))).1.current = some i ∧
      (padThreadStep s (.Down (index_to_pos i))).1.out_pad.getColor (index_to_pos i) =
        Color.ofByte ((s.out_pad.getColor (index_to_pos i)).toByte * 3) ∧
      (padThreadStep s (.Down (index_to_pos i))).1.out_pad.getColor (0, 8) =
        Color.ofByte ((s.out_pad.getColor (index_to_pos i)).toByte * 3)) := by
  constructor
  · intro x y hy1 hy7 hge
    rw [padThreadStep_matrix s x y hy1 hy7]
    rw [padDown_guard_false s x y (fun h => absurd h.2 (by omega))]
  · intro i hc hfree hib
    have hx : i % 8 ≤ 8 := by omega
    have hy1 : 1 ≤ i / 8 + 1 := by omega
    have hy7 : i / 8 + 1 ≤ 7 := by omega
    have hpi : pos_to_index (i % 8, i / 8 + 1) = i := pos_index_inverse i
    have hlt : pos_to_index (i % 8, i / 8 + 1) < s.out_vec.length := by
      rw [hpi]
      exact get?_lt_length hfree
    have hstep : padThreadStep s (.Down (index_to_pos i)) =
        (padDown s (i % 8) (i / 8 + 1), []) :=
      padThreadStep_matrix s (i % 8) (i / 8 + 1) hy1 hy7
    have hpd := padDown_of_none s hok (i % 8) (i / 8 + 1) hx hy7 hc hlt
    have hidx_i : colorIndex (i % 8, i / 8 + 1) < 81 := by
      unfold colorIndex
      simp
      omega
    have hne72i : (72 : Nat) ≠ colorIndex (i % 8, i / 8 + 1) := by
      unfold colorIndex
      simp
      omega
    have hpos_eq : index_to_pos i = (i % 8, i / 8 + 1) := rfl
    rw [hstep]
    simp only
    rw [hpd, hpos_eq, hpi]
    refine ⟨rfl, ?_, ?_⟩
    · unfold LaunchpadOutBuf.getColor
      simp only
      rw [getD_set_ne hne72i, getD_set_self (by rw [hlen]; exact hidx_i)]
      exact ofByte_toByte _
    · unfold LaunchpadOutBuf.getColor
      simp only
      rw [show colorIndex (0, 8) = 72 from rfl,
        getD_set_self (by rw [List.length_set, hlen]; omega)]
      exact ofByte_toByte _

set_option maxRecDepth 10000 in
/-- Witness for C10: a single-slot table whose slot 0 was released.  A
press beyond the table length is ignored, yet a press on the empty slot 0
still becomes the selection. -/
theorem press_guard_shallow_witness :
    padThreadStep ⟨none, ⟨List.replicate 81 0, ⟨fun _ _ _ => .ok ()⟩⟩, [none]⟩
        (.Down (3, 1)) =
      (⟨none, ⟨List.replicate 81 0, ⟨fun _ _ _ => .ok ()⟩⟩, [none]⟩, []) ∧
    (padThreadStep ⟨none, ⟨List.replicate 81 0, ⟨fun _ _ _ => .ok ()⟩⟩, [none]⟩
        (.Down (index_to_pos 0))).1.current = some 0 := by
  constructor
  · exact (press_guard_shallow ⟨none, ⟨List.replicate 81 0, ⟨fun _ _ _ => .ok ()⟩⟩,
      [none]⟩ (fun _ _ _ => rfl) (by simp)).1 3 1 (by decide) (by decide) (by decide)
  · exact ((press_guard_shallow ⟨none, ⟨List.replicate 81 0, ⟨fun _ _ _ => .ok ()⟩⟩,
      [none]⟩ (fun _ _ _ => rfl) (by simp)).2 0 rfl rfl (by decide)).1

/-! ## Claim C3: dimming and hue -/

/-- A device whose sends always succeed, for concrete runs. -/
def okDev : OutDev := ⟨fun _ _ _ => .ok ()⟩

/-- The router state as `main` establishes it: a cleared 81-byte buffer and
the four static function-row lights at `(1..4, 8)`. -/
def initState : RState :=
  let b0 : LaunchpadOutBuf := ⟨List.replicate 81 0, okDev⟩
  let b1 := (b0.clear).1
  let b2 := (b1.setColor (1, 8) Color.YELLOW).1
  let b3 := (b2.setColor (2, 8) Color.ORANGE).1
  let b4 := (b3.setColor (3, 8) Color.RED).1
  let b5 := (b4.setColor (4, 8) Color.GREEN).1
  ⟨none, b5, []⟩

/-- A concrete run: register session A (slot 0), press its pad (selecting
it), register session B (slot 1), disconnect A — which frees slot 0 but
leaves it selected — and register session C, which reuses slot 0 and paints
it with the neutral color `0x11` while slot 0 is still the selection. -/
def dimTrace : RState :=
  let s1 := (ws_register initState 10).1
  let s2 := (padThreadStep s1 (.Down (0, 1))).1
  let s3 := (ws_register s2 11).1
  let s4 := ws_unregister s3 0
  (ws_register s4 12).1

set_option maxRecDepth 10000 in
/-- Claim C3, counterexample: in the reachable state `dimTrace` the
selected session's light holds byte `0x11` (green nibble 1, nonzero);
pressing registered session 1's pad dims it to `(0x11 / 3) & 0x33 = 0x01`,
whose green nibble is zero — the division by 3 does change the hue of a
color the selected light can hold. -/
theorem dim_changes_hue_cex :
    dimTrace.current = some 0 ∧
    (dimTrace.out_pad.getColor (index_to_pos 0)).toByte = 0x11 ∧
    (dimTrace.out_pad.getColor (index_to_pos 0)).green ≠ 0 ∧
    getInner dimTrace.out_vec 1 = some 11 ∧
    ((padThreadStep dimTrace (.Down (index_to_pos 1))).1.out_pad.getColor
      (index_to_pos 0)).toByte = 0x01 ∧
    ((padThreadStep dimTrace (.Down (index_to_pos 1))).1.out_pad.getColor
      (index_to_pos 0)).green = 0 := by decide

set_option synthInstance.maxSize 2000 in
set_option maxRecDepth 8192 in
/-- Claim C3 (amended): dimming (byte divided by 3, re-masked through
`Color::new`) never increases either nibble, and preserves hue — nonzero
nibbles stay nonzero, zero nibbles stay zero — for every color whose red
and green nibbles are each 0 or 3, which covers the confirmed and
brightened encodings BLACK, RED `0x03`, GREEN `0x30` and ORANGE `0x33`.
For other reachable values (such as the neutral `0x11` of `dimTrace`) a
nonzero nibble can vanish. -/
theorem dim_preserves_strong_hues :
    ∀ v, v < 256 →
      ((Color.ofByte v).red = 0 ∨ (Color.ofByte v).red = 3) →
      ((Color.ofByte v).green = 0 ∨ (Color.ofByte v).green = 3) →
      (Color.ofByte ((Color.ofByte v).toByte / 3)).toByte ≤ (Color.ofByte v).toByte ∧
      (Color.ofByte ((Color.ofByte v).toByte / 3)).red ≤ (Color.ofByte v).red ∧
      (Color.ofByte ((Color.ofByte v).toByte / 3)).green ≤ (Color.ofByte v).green ∧
      ((Color.ofByte ((Color.ofByte v).toByte / 3)).red = 0 ↔
        (Color.ofByte v).red = 0) ∧
      ((Color.ofByte ((Color.ofByte v).toByte / 3)).green = 0 ↔
        (Color.ofByte v).green = 0) := by decide

/-- Witness for C3 (amended): the brightened ORANGE `0x33` dims to `0x11`,
keeping both nibbles nonzero. -/
theorem dim_preserves_strong_hues_witness :
    (Color.ofByte ((Color.ofByte 0x33).toByte / 3)).toByte ≤ (Color.ofByte 0x33).toByte ∧
    (Color.ofByte ((Color.ofByte 0x33).toByte / 3)).red ≤ (Color.ofByte 0x33).red ∧
    (Color.ofByte ((Color.ofByte 0x33).toByte / 3)).green ≤ (Color.ofByte 0x33).green ∧
    ((Color.ofByte ((Color.ofByte 0x33).toByte / 3)).red = 0 ↔
      (Color.ofByte 0x33).red = 0) ∧
    ((Color.ofByte ((Color.ofByte 0x33).toByte / 3)).green = 0 ↔
      (Color.ofByte 0x33).green = 0) :=
  dim_preserves_strong_hues 0x33 (by decide) (by decide) (by decide)

/-! ## The 57th session: slot 56 sits on the indicator cell -/

/-- The router state after `main`'s startup and 57 concurrent session
registrations (sender tokens 0..56).  `index_to_pos 56 = (0, 8)`: the 57th
session's pad position is the function-row indicator cell itself, which its
registration paints with the neutral `0x11`. -/
def reg57 : RState :=
  (List.range 57).foldl (fun s t => (ws_register s t).1) initState

/-- `reg57` after the scene-button notification `0x90/0x68/0x7F`, which
decodes to `Down (8, 7)`; `pos_to_index (8, 7) = 56 < 57`, so the press
guard passes and slot 56 becomes the selected session. -/
def sel56 : RState := (padThreadStep reg57 (.Down (8, 7))).1

set_option maxRecDepth 100000 in
/-- Claim C2, counterexample: in the reachable state `sel56` the selected
index is 56, whose position is the indicator cell `(0, 8)`.  Pressing
registered session 0's pad then writes the dim value to cell `(0, 8)` but
immediately overwrites it with the indicator mirror: the previously
selected position's light ends at the brightened color `0x33` of the
pressed pad, not at the dim intensity — the demotion of the frozen claim
fails in this state. -/
theorem press_selected56_not_dimmed :
    mapMidiMsg ⟨IN_DATA, leBytes 0x90 0x68 0x7F 0⟩ = some (.Down (8, 7)) ∧
    sel56.current = some 56 ∧
    index_to_pos 56 = (0, 8) ∧
    getInner sel56.out_vec 0 = some 0 ∧
    (padThreadStep sel56 (.Down (0, 1))).1.current = some 0 ∧
    ((padThreadStep sel56 (.Down (0, 1))).1.out_pad.getColor
      (index_to_pos 56)).toByte = 0x33 ∧
    (padThreadStep sel56 (.Down (0, 1))).1.out_pad.getColor (index_to_pos 56) ≠
      Color.ofByte ((sel56.out_pad.getColor (index_to_pos 56)).toByte / 3) := by
  decide

set_option maxRecDepth 100000 in
/-- Claim C4, counterexample: in the reachable state `reg57` session 56 is
registered but not selected (nothing is selected), and the indicator
`(0, 8)` holds `0x11`.  Its client code `"1"` takes the non-selected
branch and paints the session's own cell — which is the indicator cell —
with `0x10`: the indicator does not stay unchanged for this registered
session. -/
theorem client_message_indicator_cex :
    getInner reg57.out_vec 56 = some 56 ∧
    reg57.current = none ∧
    index_to_pos 56 = (0, 8) ∧
    (reg57.out_pad.getColor (0, 8)).toByte = 0x11 ∧
    ((ws_message reg57 56 "1").out_pad.getColor (0, 8)).toByte = 0x10 ∧
    (ws_message reg57 56 "1").out_pad.getColor (0, 8) ≠
      reg57.out_pad.getColor (0, 8) := by
  decide

end Launchpad
